import Mathlib

/-!
Verification development for the MCPRelay stdio-to-HTTP/SSE bridge.

The Go source (package `relay`, file relay.go, plus the endpoint store in
package `data`) is shallowly embedded below.  Pure string manipulation from
the Go standard library (strings.TrimSpace, strings.HasPrefix, strings.Drop
of a checked literal via strings.TrimPrefix, bytes.TrimRight) is modelled by
executable helpers over `List Char`; `encoding/json` is modelled by a JSON
value type, a recursive-descent parser for the JSON fragment the relay
exchanges (objects, arrays, strings with the common escapes, integer
numbers, booleans, null) and a marshaller that writes object keys in sorted
order, exactly as the Go `encoding/json` package does for a `map[string]interface\x7b\x7d`
values.  Network effects are made explicit: each relay operation takes the
outcome of its single HTTP round trip as an argument.
-/

namespace MCPRelay

/-- JSON values as decoded by `encoding/json` into `interface\x7b\x7d`.
Numbers are modelled as integers: every numeric literal the relay or its
specification exchanges is integral, and Go renders integral `float64`
values without a decimal point, so `Int` rendering agrees with Go on this
domain. -/
inductive JsonValue where
  | null : JsonValue
  | bool : Bool → JsonValue
  | num : Int → JsonValue
  | str : String → JsonValue
  | arr : List JsonValue → JsonValue
  | obj : List (String × JsonValue) → JsonValue

/-- Lookup in a decoded object, last binding wins, exactly as repeated keys
behave when `encoding/json` fills a Go map. -/
def mapGet (fields : List (String × JsonValue)) (k : String) : Option JsonValue :=
  fields.foldl (fun acc p => if p.1 = k then some p.2 else acc) none

/-- ASCII whitespace, the character class of the Go `strings.TrimSpace` (on
the ASCII range) and of the insignificant whitespace of the JSON grammar. -/
def isSpaceChar (c : Char) : Bool :=
  c = ' ' || c = '\t' || c = '\n' || c = '\r'

/-- Model of `strings.TrimSpace`. -/
def goTrimSpace (s : String) : String :=
  String.mk (((s.data.dropWhile isSpaceChar).reverse.dropWhile isSpaceChar).reverse)

/-- Model of `bytes.TrimRight(msg, "\r\n\t ")` used by `sendToClient`. -/
def trimRightBytes (s : String) : String :=
  String.mk ((s.data.reverse.dropWhile isSpaceChar).reverse)

/-- Does `s` start with `p`?  Model of `strings.HasPrefix`. -/
def listStarts : List Char → List Char → Bool
  | _, [] => true
  | [], _ :: _ => false
  | c :: cs, d :: ds => c = d && listStarts cs ds

/-- Model of `strings.HasPrefix`. -/
def strStarts (s p : String) : Bool :=
  listStarts s.data p.data

/-- Drop the first `n` characters; with a verified literal of length `n` in
front this is the Go `strings.TrimPrefix`. -/
def strDrop (s : String) (n : Nat) : String :=
  String.mk (s.data.drop n)

/-- Minimal JSON string escaping as produced by the Go `encoding/json` encoder
(quote, backslash, the common control characters, and the HTML-escaped
characters). -/
def escapeChar (c : Char) : String :=
  if c = '"' then "\\\""
  else if c = '\\' then "\\\\"
  else if c = '\n' then "\\n"
  else if c = '\t' then "\\t"
  else if c = '\r' then "\\r"
  else if c = '<' then "\\u003c"
  else if c = '>' then "\\u003e"
  else if c = '&' then "\\u0026"
  else String.mk [c]

/-- Escape a whole string for JSON output. -/
def escapeString (s : String) : String :=
  s.data.foldl (fun acc c => acc ++ escapeChar c) ""

mutual

/-- Model of `json.Marshal`.  Object fields are written in the order of the
field list; every object the relay marshals is built below with its fields
already in the sorted-key order in which Go serializes a
`map[string]interface\x7b\x7d`. -/
def jsonMarshal : JsonValue → String
  | JsonValue.null => "null"
  | JsonValue.bool b => if b then "true" else "false"
  | JsonValue.num n => toString n
  | JsonValue.str s => "\"" ++ escapeString s ++ "\""
  | JsonValue.arr xs => "[" ++ jsonMarshalElems xs ++ "]"
  | JsonValue.obj fs => "\x7b" ++ jsonMarshalFields fs ++ "\x7d"

/-- Comma-separated marshalling of array elements. -/
def jsonMarshalElems : List JsonValue → String
  | [] => ""
  | [x] => jsonMarshal x
  | x :: y :: xs => jsonMarshal x ++ "," ++ jsonMarshalElems (y :: xs)

/-- Comma-separated marshalling of object fields. -/
def jsonMarshalFields : List (String × JsonValue) → String
  | [] => ""
  | [(k, v)] => "\"" ++ escapeString k ++ "\":" ++ jsonMarshal v
  | (k, v) :: f :: fs =>
      "\"" ++ escapeString k ++ "\":" ++ jsonMarshal v ++ "," ++ jsonMarshalFields (f :: fs)

end

/-- Skip insignificant JSON whitespace. -/
def skipWs : List Char → List Char
  | [] => []
  | c :: cs => if isSpaceChar c then skipWs cs else c :: cs

/-- Parse the body of a JSON string after the opening quote, returning the
decoded characters and the remaining input.  Supports the escapes the relay
traffic uses; exotic escapes make the parse fail (modelled subset of the Go
decoder). -/
def parseStringBody : List Char → Option (List Char × List Char)
  | [] => none
  | '"' :: rest => some ([], rest)
  | '\\' :: rest =>
      match rest with
      | [] => none
      | e :: rest2 =>
          let ec : Option Char :=
            if e = '"' then some '"'
            else if e = '\\' then some '\\'
            else if e = '/' then some '/'
            else if e = 'n' then some '\n'
            else if e = 't' then some '\t'
            else if e = 'r' then some '\r'
            else none
          match ec with
          | none => none
          | some c =>
              match parseStringBody rest2 with
              | none => none
              | some (s, r) => some (c :: s, r)
  | c :: rest =>
      match parseStringBody rest with
      | none => none
      | some (s, r) => some (c :: s, r)

/-- Decimal digit value. -/
def digitVal (c : Char) : Option Nat :=
  if c.isDigit then some (c.toNat - 48) else none

/-- Take a maximal run of digits. -/
def takeDigits : List Char → (List Nat × List Char)
  | [] => ([], [])
  | c :: cs =>
      match digitVal c with
      | some d =>
          match takeDigits cs with
          | (ds, r) => (d :: ds, r)
      | none => ([], c :: cs)

/-- Digits to a natural number, most significant first. -/
def digitsToNat (ds : List Nat) : Nat :=
  ds.foldl (fun a d => a * 10 + d) 0

/-- Parse an integer JSON number (modelled subset: no fraction, no
exponent; all relay traffic uses integral identifiers and codes). -/
def parseNumber : List Char → Option (Int × List Char)
  | '-' :: cs =>
      match takeDigits cs with
      | ([], _) => none
      | (d :: ds, r) => some (-(Int.ofNat (digitsToNat (d :: ds))), r)
  | cs =>
      match takeDigits cs with
      | ([], _) => none
      | (d :: ds, r) => some (Int.ofNat (digitsToNat (d :: ds)), r)

mutual

/-- Recursive-descent JSON value parser; `fuel` bounds the nesting and is
always instantiated with more than the input length. -/
def parseVal (fuel : Nat) (cs : List Char) : Option (JsonValue × List Char) :=
  match fuel with
  | 0 => none
  | Nat.succ fl =>
      match skipWs cs with
      | 'n' :: 'u' :: 'l' :: 'l' :: rest => some (JsonValue.null, rest)
      | 't' :: 'r' :: 'u' :: 'e' :: rest => some (JsonValue.bool true, rest)
      | 'f' :: 'a' :: 'l' :: 's' :: 'e' :: rest => some (JsonValue.bool false, rest)
      | '"' :: rest =>
          match parseStringBody rest with
          | some (s, r) => some (JsonValue.str (String.mk s), r)
          | none => none
      | '\x7b' :: rest =>
          match skipWs rest with
          | '\x7d' :: r => some (JsonValue.obj [], r)
          | r =>
              match parseMembers fl r with
              | some (fs, r2) => some (JsonValue.obj fs, r2)
              | none => none
      | '[' :: rest =>
          match skipWs rest with
          | ']' :: r => some (JsonValue.arr [], r)
          | r =>
              match parseElems fl r with
              | some (xs, r2) => some (JsonValue.arr xs, r2)
              | none => none
      | other =>
          match parseNumber other with
          | some (n, r) => some (JsonValue.num n, r)
          | none => none

/-- Parse one or more `"key": value` members followed by `,` or the closing
brace. -/
def parseMembers (fuel : Nat) (cs : List Char) :
    Option (List (String × JsonValue) × List Char) :=
  match fuel with
  | 0 => none
  | Nat.succ fl =>
      match skipWs cs with
      | '"' :: rest =>
          match parseStringBody rest with
          | none => none
          | some (k, r1) =>
              match skipWs r1 with
              | ':' :: r2 =>
                  match parseVal fl r2 with
                  | none => none
                  | some (v, r3) =>
                      match skipWs r3 with
                      | ',' :: r4 =>
                          match parseMembers fl r4 with
                          | none => none
                          | some (fs, r5) => some ((String.mk k, v) :: fs, r5)
                      | '\x7d' :: r4 => some ([(String.mk k, v)], r4)
                      | _ => none
              | _ => none
      | _ => none

/-- Parse one or more array elements followed by `,` or the closing
bracket. -/
def parseElems (fuel : Nat) (cs : List Char) :
    Option (List JsonValue × List Char) :=
  match fuel with
  | 0 => none
  | Nat.succ fl =>
      match parseVal fl cs with
      | none => none
      | some (v, r1) =>
          match skipWs r1 with
          | ',' :: r2 =>
              match parseElems fl r2 with
              | none => none
              | some (xs, r3) => some (v :: xs, r3)
          | ']' :: r2 => some ([v], r2)
          | _ => none

end

/-- Model of `json.Unmarshal` into `interface\x7b\x7d`: parse one value and
require only whitespace to remain. -/
def jsonUnmarshal (s : String) : Option JsonValue :=
  match parseVal (s.data.length + 1) s.data with
  | some (v, rest) => if skipWs rest = [] then some v else none
  | none => none

/-- Model of `json.Unmarshal` into `map[string]interface\x7b\x7d`: succeeds
exactly when the input is a single JSON object. -/
def unmarshalToMap (s : String) : Option (List (String × JsonValue)) :=
  match jsonUnmarshal s with
  | some (JsonValue.obj fs) => some fs
  | _ => none

/-- Model of `sendToClient`: the byte sequence one call writes to stdout
for a message, after `bytes.TrimRight(msg, "\r\n\t ")` and appending the
newline.  The write happens under `writerMutex`; the lock discipline is
modelled separately by `EmitStep`. -/
def sendToClient (msg : String) : String :=
  trimRightBytes msg ++ "\n"

/-- Identifier extraction of `createErrorResponse`: `nil` unless the
request text is nonempty, unmarshals into a map, and carries an `id`
binding. -/
def extractId (requestJSON : String) : JsonValue :=
  if requestJSON = "" then JsonValue.null
  else
    match unmarshalToMap requestJSON with
    | some fields => (mapGet fields "id").getD JsonValue.null
    | none => JsonValue.null

/-- The JSON-RPC error object built by `createErrorResponse`.  In the Go
source it is a `map[string]interface\x7b\x7d`, so `json.Marshal` writes its
keys in sorted order: `error`, `id`, `jsonrpc` (and inside the error
object `code`, `message`); the field lists are written here in that
serialization order. -/
def errorBody (id : JsonValue) (code : Int) (message : String) : JsonValue :=
  JsonValue.obj
    [("error", JsonValue.obj [("code", JsonValue.num code), ("message", JsonValue.str message)]),
     ("id", id),
     ("jsonrpc", JsonValue.str "2.0")]

/-- Model of `createErrorResponse`: extract the id from the request text
and marshal the JSON-RPC 2.0 error object. -/
def createErrorResponse (requestJSON : String) (code : Int) (message : String) : String :=
  jsonMarshal (errorBody (extractId requestJSON) code message)

/-- Outcome of the single POST round trip performed by
`processHTTPRequest`: the transport fails (`httpClient.Do` error), the
body read fails (`io.ReadAll` error, after the status and the
`Mcp-Session-Id` header were received), or a complete response arrives.
The header argument is the `Mcp-Session-Id` response header (empty when
absent). -/
inductive HTTPOutcome where
  | postFailure (errMsg : String)
  | readFailure (status : Nat) (sessionHeader : String) (errMsg : String)
  | response (status : Nat) (sessionHeader : String) (body : String)

/-- Observable result of one `processHTTPRequest` call: the bytes returned
to `runHTTP` for emission (`none` models a `nil` return), whether a POST
was issued, the session id afterwards, and whether the branch that logs
the upstream failure body was taken. -/
structure HTTPStep where
  output : Option String
  forwarded : Bool
  sessionAfter : String
  loggedBody : Bool

/-- Session capture: `resp.Header.Get("Mcp-Session-Id")` is stored only
when nonempty and no session id is known yet. -/
def updateSession (sessionID hdr : String) : String :=
  if hdr ≠ "" ∧ sessionID = "" then hdr else sessionID

/-- Model of `processHTTPRequest`: trim the line, require a leading brace,
unmarshal into a map, drop notifications (no `id` binding), otherwise POST
and translate the outcome; transport failure, read failure and non-2xx
status all yield `createErrorResponse` with code -32603, and a 2xx
response returns its body verbatim. -/
def processHTTPRequest (debug : Bool) (sessionID : String) (rawLine : String)
    (outcome : HTTPOutcome) : HTTPStep :=
  let line := goTrimSpace rawLine
  if strStarts line "\x7b" then
    match unmarshalToMap line with
    | none => ⟨none, false, sessionID, false⟩
    | some fields =>
        match mapGet fields "id" with
        | none => ⟨none, false, sessionID, false⟩
        | some _ =>
            match outcome with
            | HTTPOutcome.postFailure e =>
                ⟨some (createErrorResponse line (-32603) ("Failed to POST: " ++ e)),
                  true, sessionID, false⟩
            | HTTPOutcome.readFailure _ hdr e =>
                ⟨some (createErrorResponse line (-32603) ("Failed to read response: " ++ e)),
                  true, updateSession sessionID hdr, false⟩
            | HTTPOutcome.response status hdr body =>
                if status < 200 ∨ 300 ≤ status then
                  ⟨some (createErrorResponse line (-32603)
                      ("Server returned HTTP " ++ toString status)),
                    true, updateSession sessionID hdr, debug && !(body = "")⟩
                else
                  ⟨some body, true, updateSession sessionID hdr, false⟩
  else ⟨none, false, sessionID, false⟩

/-- Outcome of the POST issued by `processStdinLine` (SSE mode): transport
failure, or a status; the body is closed unread in this mode. -/
inductive PostOutcome where
  | failure (errMsg : String)
  | success (status : Nat)

/-- Observable result of one `processStdinLine` call: the bytes emitted to
the client (only the transport-failure branch emits, via
`sendClientError`), whether a POST was issued, and to which URL. -/
structure StdinStep where
  output : Option String
  forwarded : Bool
  postedTo : Option String
  deriving DecidableEq, Repr

/-- Model of `processStdinLine` (SSE mode): trim, require a leading brace
and a successful unmarshal into a map, then POST the raw line to the
current submission URL.  A transport failure emits
the synthesized -32603 error of `sendClientError`; any received status (2xx or
not) is only logged and nothing is emitted — the reply reaches the client
through the SSE stream. -/
def processStdinLine (rawLine : String) (postURL : String) (outcome : PostOutcome) :
    StdinStep :=
  let line := goTrimSpace rawLine
  if strStarts line "\x7b" then
    match unmarshalToMap line with
    | some _ =>
        match outcome with
        | PostOutcome.failure e =>
            ⟨some (createErrorResponse "" (-32603)
                ("Internal error: " ++ ("Failed to forward JSON-RPC message: " ++ e))),
              true, some postURL⟩
        | PostOutcome.success _ => ⟨none, true, some postURL⟩
    | none => ⟨none, false, none⟩
  else ⟨none, false, none⟩

/-- State of one SSE connection inside `sseClient`: the endpoint tracker
`epTrack` (0 idle, 1 pending, 3 latched), the submission URL held by the
endpoint store (`postURL`, mutated by `SetPostPath` which concatenates the
server origin and the advertised path), the payloads forwarded to the
client via `sendToClient`, and the payloads logged by the
protocol-violation warning. -/
structure SSEConnState where
  epTrack : Nat
  postURL : String
  emitted : List String
  warned : List String
  deriving DecidableEq, Repr

/-- Model of one iteration of the stream-read loop in `sseClient`: trim
the line; skip empty lines; `event: endpoint` arms the tracker; non-data
lines are ignored; a data payload either rewrites the submission URL (when
pending and the payload is a path), or is forwarded, with a warning and
disarm when pending but not a path. -/
def sseProcessLine (server : String) (st : SSEConnState) (rawLine : String) :
    SSEConnState :=
  let line := goTrimSpace rawLine
  if line = "" then st
  else if strStarts line "event: endpoint" then
    { st with epTrack := 1 }
  else if !(strStarts line "data:") then st
  else
    let tmp := goTrimSpace (strDrop line 5)
    if tmp = "" then st
    else if st.epTrack = 1 then
      if strStarts tmp "/" then
        { st with epTrack := 3, postURL := server ++ tmp }
      else
        { st with epTrack := 3, emitted := st.emitted ++ [tmp], warned := st.warned ++ [tmp] }
    else
      { st with emitted := st.emitted ++ [tmp] }

/-- One SSE connection: `epTrack` is reset to 0 at connect time, the
submission URL persists from before, and the received lines are processed
in order. -/
def sseConn (server : String) (postURL0 : String) (lines : List String) : SSEConnState :=
  lines.foldl (sseProcessLine server) ⟨0, postURL0, [], []⟩

/-- Control-flow observer on a list of stream lines: starting from the
given tracker value, does processing them ever take the rewrite branch of
`sseProcessLine` (armed tracker and a nonempty data payload that is a
path)?  It mirrors branch for branch the tracker evolution of
`sseProcessLine`: empty, non-data and empty-payload lines leave the
tracker alone, an `event: endpoint` line arms it, and an armed tracker
meeting a non-path payload latches to 3.  The submission URL changes
during a connection exactly on the branch this observer reports. -/
def hasValidRewrite (epTrack : Nat) : List String → Bool
  | [] => false
  | rawLine :: ls =>
      let line := goTrimSpace rawLine
      if line = "" then hasValidRewrite epTrack ls
      else if strStarts line "event: endpoint" then hasValidRewrite 1 ls
      else if !(strStarts line "data:") then hasValidRewrite epTrack ls
      else
        let tmp := goTrimSpace (strDrop line 5)
        if tmp = "" then hasValidRewrite epTrack ls
        else if epTrack = 1 then
          if strStarts tmp "/" then true
          else hasValidRewrite 3 ls
        else hasValidRewrite epTrack ls

/-- Events observed by the select loops of `runSSE`, in arrival order: a
receive from the `sseConnected` channel, a line from the stdin channel, or
the stdin error channel firing (EOF or read error). -/
inductive SSEEvent where
  | connected
  | stdinLine (line : String)
  | stdinClosed
  deriving DecidableEq, Repr

/-- Control position of `runSSE`: the wait-for-SSE loop, the main forward
loop, or returned. -/
inductive RunPhase where
  | waiting
  | running
  | finished
  deriving DecidableEq, Repr

/-- State of the `runSSE` control flow: the phase, the single saved
`pendingLine` (empty string means none, as in the source), the lines
handed to `processStdinLine` in order, and how many receives from the
`sseConnected` channel have been consumed. -/
structure RunState where
  phase : RunPhase
  pendingLine : String
  processed : List String
  connectedConsumed : Nat
  deriving DecidableEq, Repr

/-- Model of one select round of `runSSE`.  While waiting: a connected
signal moves to the main loop after processing the pending line if any; a
stdin line is saved only when no line is pending; stdin closure returns.
While running: stdin lines are processed, stdin closure returns, and the
connected channel is never received from again (a further signal stays in
the channel).  After returning, nothing happens. -/
def runSSEStep (st : RunState) (e : SSEEvent) : RunState :=
  match st.phase with
  | RunPhase.finished => st
  | RunPhase.waiting =>
      match e with
      | SSEEvent.connected =>
          { st with phase := RunPhase.running,
                    connectedConsumed := st.connectedConsumed + 1,
                    processed := st.processed ++
                      (if st.pendingLine = "" then [] else [st.pendingLine]) }
      | SSEEvent.stdinLine l =>
          if st.pendingLine = "" then { st with pendingLine := l } else st
      | SSEEvent.stdinClosed => { st with phase := RunPhase.finished }
  | RunPhase.running =>
      match e with
      | SSEEvent.connected => st
      | SSEEvent.stdinLine l => { st with processed := st.processed ++ [l] }
      | SSEEvent.stdinClosed => { st with phase := RunPhase.finished }

/-- Initial state of `runSSE`: waiting for the SSE connection, no pending
line. -/
def runSSEInit : RunState :=
  ⟨RunPhase.waiting, "", [], 0⟩

/-- Run the `runSSE` control flow over a whole arrival sequence. -/
def runSSETrace (events : List SSEEvent) : RunState :=
  events.foldl runSSEStep runSSEInit

/-- The byte sequence one `sendToClient` call writes while holding
`writerMutex`. -/
def emitBytes (m : String) : List Char :=
  (sendToClient m).data

/-- Configuration of the output writer under concurrent `sendToClient`
calls: messages whose calls have not yet entered the critical section,
the current lock holder together with the bytes it still has to write, the
messages whose writes completed (in completion order), and the byte stream
written to stdout so far. -/
structure WConfig where
  pend : List String
  cur : Option (String × List Char)
  completed : List String
  out : List Char

/-- Interleaving semantics of the output writer.  Any pending call may
acquire the free mutex; only the holder writes, one byte at a time, so the
model itself permits byte-level scheduling and only the lock forbids
interleaving; releasing requires the message to be fully written, since
the unlock is deferred past the write in the source. -/
inductive EmitStep : WConfig → WConfig → Prop where
  | acquire (pre post : List String) (m : String) (completed : List String) (out : List Char) :
      EmitStep ⟨pre ++ m :: post, none, completed, out⟩
        ⟨pre ++ post, some (m, emitBytes m), completed, out⟩
  | write (pend : List String) (m : String) (c : Char) (rest : List Char)
      (completed : List String) (out : List Char) :
      EmitStep ⟨pend, some (m, c :: rest), completed, out⟩
        ⟨pend, some (m, rest), completed, out ++ [c]⟩
  | release (pend : List String) (m : String) (completed : List String) (out : List Char) :
      EmitStep ⟨pend, some (m, []), completed, out⟩
        ⟨pend, none, completed ++ [m], out⟩

/-- Starting configuration: a set of concurrent `sendToClient` calls, the
mutex free, nothing written. -/
def initW (msgs : List String) : WConfig :=
  ⟨msgs, none, [], []⟩

/-- Concatenation of the complete emitted lines of the finished calls. -/
def joinedOut (completed : List String) : List Char :=
  (completed.map emitBytes).flatten

end MCPRelay

namespace MCPRelay

example : jsonUnmarshal "\x7b\"jsonrpc\":\"2.0\",\"id\":1,\"method\":\"ping\"\x7d" =
    some (JsonValue.obj [("jsonrpc", JsonValue.str "2.0"), ("id", JsonValue.num 1),
      ("method", JsonValue.str "ping")]) := by rfl

example : unmarshalToMap "\x7b\"id\":null\x7d" = some [("id", JsonValue.null)] := by rfl

example : jsonMarshal (JsonValue.obj [("id", JsonValue.num (-32603))]) =
    "\x7b\"id\":-32603\x7d" := by rfl

example :
    (processHTTPRequest false "" "\x7b\"jsonrpc\":\"2.0\",\"id\":1,\"method\":\"ping\"\x7d"
      (HTTPOutcome.response 500 "" "")).output =
    some "\x7b\"error\":\x7b\"code\":-32603,\"message\":\"Server returned HTTP 500\"\x7d,\"id\":1,\"jsonrpc\":\"2.0\"\x7d" := by
  rfl

example :
    (processHTTPRequest false "" "\x7b\"jsonrpc\":\"2.0\",\"id\":1,\"method\":\"ping\"\x7d"
      (HTTPOutcome.response 200 "" "\x7b\"jsonrpc\":\"2.0\",\"id\":1,\"result\":\x7b\x7d\x7d")).output =
    some "\x7b\"jsonrpc\":\"2.0\",\"id\":1,\"result\":\x7b\x7d\x7d" := by rfl

example :
    (processHTTPRequest true "" "\x7b\"jsonrpc\":\"2.0\",\"method\":\"notify\"\x7d"
      (HTTPOutcome.response 200 "" "x")).output = none := by rfl

example :
    (processStdinLine "\x7b\"jsonrpc\":\"2.0\",\"id\":1,\"method\":\"ping\"\x7d" "http://h/m"
      (PostOutcome.success 500)) = ⟨none, true, some "http://h/m"⟩ := by rfl

example :
    (sseConn "http://h" "http://h/messages"
      ["event: endpoint", "data: /a", "event: endpoint", "data: /b"]).postURL =
    "http://h/b" := by rfl

example :
    (sseConn "http://h" "http://h/messages"
      ["event: endpoint", "data: x", "data: y"]) =
    ⟨3, "http://h/messages", ["x", "y"], ["x"]⟩ := by rfl

example :
    (sseConn "http://h" "http://h/messages"
      ["event: endpoint", "data: /a", "event: endpoint", "data: x"]).postURL =
    "http://h/a" := by rfl

example : hasValidRewrite 3 ["event: endpoint", "data: x"] = false := by rfl

example : hasValidRewrite 3 ["event: endpoint", "data: /b"] = true := by rfl

/-- A string with a leading brace is nonempty. -/
theorem starts_brace_ne_empty (s : String) (h : strStarts s "\x7b" = true) : s ≠ "" := by
  intro he
  rw [he] at h
  exact absurd h (by decide)

/-- A string with a leading `data:` is nonempty. -/
theorem starts_data_ne_empty (s : String) (h : strStarts s "data:" = true) : s ≠ "" := by
  intro he
  rw [he] at h
  exact absurd h (by decide)

/-- A string with a leading slash is nonempty. -/
theorem starts_slash_ne_empty (s : String) (h : strStarts s "/" = true) : s ≠ "" := by
  intro he
  rw [he] at h
  exact absurd h (by decide)

/-- When the request text is nonempty and decodes to an object with an
`id` binding, `createErrorResponse` echoes exactly that identifier. -/
theorem createErrorResponse_eq (s : String) (code : Int) (msg : String)
    (fields : List (String × JsonValue)) (v : JsonValue)
    (hne : s ≠ "") (hm : unmarshalToMap s = some fields)
    (hid : mapGet fields "id" = some v) :
    createErrorResponse s code msg = jsonMarshal (errorBody v code msg) := by
  simp [createErrorResponse, extractId, hne, hm, hid]

/-- Step invariant for the `runSSE` control flow: the number of consumed
connected signals never exceeds one, and is zero while still waiting. -/
theorem runSSEStep_consumed (st : RunState) (e : SSEEvent)
    (h1 : st.connectedConsumed ≤ 1)
    (h2 : st.phase = RunPhase.waiting → st.connectedConsumed = 0) :
    (runSSEStep st e).connectedConsumed ≤ 1 ∧
      ((runSSEStep st e).phase = RunPhase.waiting →
        (runSSEStep st e).connectedConsumed = 0) := by
  cases hph : st.phase with
  | waiting =>
      cases e with
      | connected =>
          have h0 := h2 hph
          simp [runSSEStep, hph, h0]
      | stdinLine l =>
          by_cases hpend : st.pendingLine = "" <;>
            simp [runSSEStep, hph, hpend, h1, h2 hph]
      | stdinClosed => simp [runSSEStep, hph, h1]
  | running =>
      cases e with
      | connected => simp [runSSEStep, hph, h1, h2]
      | stdinLine l => simp [runSSEStep, hph, h1]
      | stdinClosed => simp [runSSEStep, hph, h1]
  | finished =>
      cases e <;> simp [runSSEStep, hph, h1, h2]

/-- Fold form of `runSSEStep_consumed`. -/
theorem runSSETrace_consumed_aux (events : List SSEEvent) (st : RunState)
    (h1 : st.connectedConsumed ≤ 1)
    (h2 : st.phase = RunPhase.waiting → st.connectedConsumed = 0) :
    (events.foldl runSSEStep st).connectedConsumed ≤ 1 := by
  induction events generalizing st with
  | nil => exact h1
  | cons e es ih =>
      have h := runSSEStep_consumed st e h1 h2
      exact ih (runSSEStep st e) h.1 h.2

/-- While a line is already pending, further stdin lines received during
the wait phase leave the state unchanged. -/
theorem runSSE_flood (p : String) (hp : p ≠ "") (pr : List String) (k : Nat)
    (ls : List String) :
    (ls.map SSEEvent.stdinLine).foldl runSSEStep ⟨RunPhase.waiting, p, pr, k⟩ =
      ⟨RunPhase.waiting, p, pr, k⟩ := by
  induction ls with
  | nil => rfl
  | cons l ls ih =>
      have hstep : runSSEStep ⟨RunPhase.waiting, p, pr, k⟩ (SSEEvent.stdinLine l) =
          ⟨RunPhase.waiting, p, pr, k⟩ := by
        simp [runSSEStep, hp]
      simp only [List.map_cons, List.foldl_cons, hstep]
      exact ih

/-- An `event: endpoint` line arms the endpoint tracker and changes
nothing else. -/
theorem sseProcessLine_event (server : String) (st : SSEConnState) (rawLine : String)
    (h1 : goTrimSpace rawLine ≠ "")
    (h2 : strStarts (goTrimSpace rawLine) "event: endpoint" = true) :
    sseProcessLine server st rawLine = { st with epTrack := 1 } := by
  simp [sseProcessLine, h1, h2]

/-- With the tracker armed, a data line whose payload is a path rewrites
the submission URL to origin plus path and latches the tracker. -/
theorem sseProcessLine_data_path (server : String) (st : SSEConnState)
    (rawLine p : String)
    (h1 : strStarts (goTrimSpace rawLine) "event: endpoint" = false)
    (h2 : strStarts (goTrimSpace rawLine) "data:" = true)
    (h3 : goTrimSpace (strDrop (goTrimSpace rawLine) 5) = p)
    (h4 : strStarts p "/" = true)
    (h5 : st.epTrack = 1) :
    sseProcessLine server st rawLine =
      { st with epTrack := 3, postURL := server ++ p } := by
  have h0 : goTrimSpace rawLine ≠ "" := starts_data_ne_empty _ h2
  have hp : p ≠ "" := starts_slash_ne_empty _ h4
  simp [sseProcessLine, h0, h1, h2, h3, h4, h5, hp]

/-- Lines that are not `event: endpoint` lines never change the submission
URL or the tracker once the tracker is off the pending state. -/
theorem sseProcessLine_preserved (server : String) (st : SSEConnState) (rawLine : String)
    (hep : st.epTrack ≠ 1)
    (hev : strStarts (goTrimSpace rawLine) "event: endpoint" = false) :
    (sseProcessLine server st rawLine).postURL = st.postURL ∧
      (sseProcessLine server st rawLine).epTrack = st.epTrack := by
  simp only [sseProcessLine, hev]
  split_ifs with hA hB hC hD <;> simp_all

/-- Fold form of `sseProcessLine_preserved`. -/
theorem sseConn_fold_preserved (server : String) (st : SSEConnState) (ls : List String)
    (hep : st.epTrack ≠ 1)
    (hev : ∀ l ∈ ls, strStarts (goTrimSpace l) "event: endpoint" = false) :
    (ls.foldl (sseProcessLine server) st).postURL = st.postURL := by
  induction ls generalizing st with
  | nil => rfl
  | cons l ls ih =>
      have h := sseProcessLine_preserved server st l hep (hev l (by simp))
      rw [List.foldl_cons]
      rw [ih (sseProcessLine server st l) (by rw [h.2]; exact hep)
        (fun x hx => hev x (by simp [hx]))]
      exact h.1

/-- As long as no valid rewrite occurs, the submission URL is preserved by
any run of stream lines, from any tracker state — in particular through a
later `event: endpoint` line whose following data payload is not a path
(a malformed re-handshake). -/
theorem sseConn_fold_no_rewrite (server : String) (ls : List String) (st : SSEConnState)
    (h : hasValidRewrite st.epTrack ls = false) :
    (ls.foldl (sseProcessLine server) st).postURL = st.postURL := by
  induction ls generalizing st with
  | nil => rfl
  | cons a ls ih =>
      rw [List.foldl_cons]
      by_cases hA : goTrimSpace a = ""
      · have hstep : sseProcessLine server st a = st := by simp [sseProcessLine, hA]
        rw [hstep]
        apply ih
        simpa [hasValidRewrite, hA] using h
      · by_cases hB : strStarts (goTrimSpace a) "event: endpoint" = true
        · have hstep : sseProcessLine server st a = { st with epTrack := 1 } :=
            sseProcessLine_event server st a hA hB
          rw [hstep]
          rw [ih { st with epTrack := 1 } (by simpa [hasValidRewrite, hA, hB] using h)]
        · by_cases hC : strStarts (goTrimSpace a) "data:" = true
          · by_cases hD : goTrimSpace (strDrop (goTrimSpace a) 5) = ""
            · have hstep : sseProcessLine server st a = st := by
                simp [sseProcessLine, hA, hB, hC, hD]
              rw [hstep]
              apply ih
              simpa [hasValidRewrite, hA, hB, hC, hD] using h
            · by_cases hE : st.epTrack = 1
              · by_cases hF : strStarts (goTrimSpace (strDrop (goTrimSpace a) 5)) "/" = true
                · exfalso
                  simp [hasValidRewrite, hA, hB, hC, hD, hE, hF] at h
                · have hstep : sseProcessLine server st a =
                      { st with
                        epTrack := 3,
                        emitted := st.emitted ++ [goTrimSpace (strDrop (goTrimSpace a) 5)],
                        warned := st.warned ++ [goTrimSpace (strDrop (goTrimSpace a) 5)] } := by
                    simp [sseProcessLine, hA, hB, hC, hD, hE, hF]
                  rw [hstep]
                  rw [ih _ (by simpa [hasValidRewrite, hA, hB, hC, hD, hE, hF] using h)]
              · have hstep : sseProcessLine server st a =
                    { st with
                      emitted := st.emitted ++ [goTrimSpace (strDrop (goTrimSpace a) 5)] } := by
                  simp [sseProcessLine, hA, hB, hC, hD, hE]
                rw [hstep]
                apply ih
                simpa [hasValidRewrite, hA, hB, hC, hD, hE] using h
          · have hstep : sseProcessLine server st a = st := by
              simp [sseProcessLine, hA, hB, hC]
            rw [hstep]
            apply ih
            simpa [hasValidRewrite, hA, hB, hC] using h

/-- Completed lines followed by one more completed line. -/
theorem joinedOut_append (completed : List String) (m : String) :
    joinedOut (completed ++ [m]) = joinedOut completed ++ emitBytes m := by
  simp [joinedOut]

/-- Writer invariant: the bytes on stdout are the completed lines in
order, followed by a prefix of the line of the current lock holder. -/
def WInv (cfg : WConfig) : Prop :=
  (cfg.cur = none → cfg.out = joinedOut cfg.completed) ∧
  (∀ m rest, cfg.cur = some (m, rest) →
    ∃ pfx, cfg.out = joinedOut cfg.completed ++ pfx ∧ pfx ++ rest = emitBytes m)

/-- The initial writer configuration satisfies the invariant. -/
theorem winv_init (msgs : List String) : WInv (initW msgs) := by
  constructor
  · intro _
    rfl
  · intro m rest h
    exact absurd h (by simp [initW])

/-- Every writer step preserves the invariant. -/
theorem winv_step (c c' : WConfig) (h : WInv c) (hs : EmitStep c c') : WInv c' := by
  cases hs with
  | acquire pre post m completed out =>
      have hout : out = joinedOut completed := h.1 rfl
      constructor
      · intro hco
        exact absurd hco (by simp)
      · intro m' rest' hco
        have hco' : some (m, emitBytes m) = some (m', rest') := hco
        injection hco' with h1
        injection h1 with h2 h3
        subst h2
        subst h3
        exact ⟨[], by simpa using hout, by simp⟩
  | write pend m c0 rest completed out =>
      obtain ⟨pfx, hpfx1, hpfx2⟩ := h.2 m (c0 :: rest) rfl
      have hpfx1' : out = joinedOut completed ++ pfx := hpfx1
      constructor
      · intro hco
        exact absurd hco (by simp)
      · intro m' rest' hco
        have hco' : some (m, rest) = some (m', rest') := hco
        injection hco' with h1
        injection h1 with h2 h3
        subst h2
        subst h3
        refine ⟨pfx ++ [c0], ?_, ?_⟩
        · show out ++ [c0] = joinedOut completed ++ (pfx ++ [c0])
          rw [hpfx1', List.append_assoc]
        · show (pfx ++ [c0]) ++ rest = emitBytes m
          rw [List.append_assoc]
          simpa using hpfx2
  | release pend m completed out =>
      obtain ⟨pfx, hpfx1, hpfx2⟩ := h.2 m [] rfl
      have hpfx1' : out = joinedOut completed ++ pfx := hpfx1
      have hpfx : pfx = emitBytes m := by simpa using hpfx2
      constructor
      · intro _
        show out = joinedOut (completed ++ [m])
        rw [joinedOut_append, hpfx1', hpfx]
      · intro m' rest' hco
        exact absurd hco (by simp)

/-- The writer invariant holds in every reachable configuration. -/
theorem winv_reach (msgs : List String) (cfg : WConfig)
    (h : Relation.ReflTransGen EmitStep (initW msgs) cfg) : WInv cfg := by
  induction h with
  | refl => exact winv_init msgs
  | tail hsteps hstep ih => exact winv_step _ _ ih hstep

/-- Appending one event to a trace runs one more step. -/
theorem runSSETrace_snoc (events : List SSEEvent) (e : SSEEvent) :
    runSSETrace (events ++ [e]) = runSSEStep (runSSETrace events) e := by
  unfold runSSETrace
  rw [List.foldl_append]
  rfl

/-- Claim C1: in HTTP mode, an input line that decodes to a JSON object
with an `id` field produces exactly one client-visible output: the
verbatim upstream body on a 2xx status, and otherwise a synthesized
JSON-RPC error with code -32603 carrying the identifier of the request. -/
theorem processHTTPRequest_single_response (debug : Bool) (sessionID rawLine : String)
    (outcome : HTTPOutcome) (fields : List (String × JsonValue)) (v : JsonValue)
    (hp : strStarts (goTrimSpace rawLine) "\x7b" = true)
    (hm : unmarshalToMap (goTrimSpace rawLine) = some fields)
    (hid : mapGet fields "id" = some v) :
    ∃ out, (processHTTPRequest debug sessionID rawLine outcome).output = some out ∧
      ((∃ status hdr body, outcome = HTTPOutcome.response status hdr body ∧
          200 ≤ status ∧ status < 300 ∧ out = body) ∨
       (∃ msg, out = jsonMarshal (errorBody v (-32603) msg))) := by
  have hne : goTrimSpace rawLine ≠ "" := starts_brace_ne_empty _ hp
  cases outcome with
  | postFailure e =>
      refine ⟨jsonMarshal (errorBody v (-32603) ("Failed to POST: " ++ e)), ?_,
        Or.inr ⟨_, rfl⟩⟩
      simp [processHTTPRequest, hp, hm, hid,
        createErrorResponse_eq _ (-32603) _ fields v hne hm hid]
  | readFailure status hdr e =>
      refine ⟨jsonMarshal (errorBody v (-32603) ("Failed to read response: " ++ e)), ?_,
        Or.inr ⟨_, rfl⟩⟩
      simp [processHTTPRequest, hp, hm, hid,
        createErrorResponse_eq _ (-32603) _ fields v hne hm hid]
  | response status hdr body =>
      by_cases hs : status < 200 ∨ 300 ≤ status
      · refine ⟨jsonMarshal (errorBody v (-32603) ("Server returned HTTP " ++ toString status)),
          ?_, Or.inr ⟨_, rfl⟩⟩
        simp [processHTTPRequest, hp, hm, hid, hs,
          createErrorResponse_eq _ (-32603) _ fields v hne hm hid]
      · refine ⟨body, ?_, Or.inl ⟨status, hdr, body, rfl, by omega, by omega, rfl⟩⟩
        simp [processHTTPRequest, hp, hm, hid, hs]

/-- Witness for C1 at the ping scenario of the specification, upstream
status 200. -/
theorem processHTTPRequest_single_response_witness :
    ∃ out, (processHTTPRequest false "" "\x7b\"jsonrpc\":\"2.0\",\"id\":1,\"method\":\"ping\"\x7d"
        (HTTPOutcome.response 200 "" "\x7b\"jsonrpc\":\"2.0\",\"id\":1,\"result\":\x7b\x7d\x7d")).output =
          some out ∧
      ((∃ status hdr body,
          HTTPOutcome.response 200 "" "\x7b\"jsonrpc\":\"2.0\",\"id\":1,\"result\":\x7b\x7d\x7d" =
            HTTPOutcome.response status hdr body ∧
          200 ≤ status ∧ status < 300 ∧ out = body) ∨
       (∃ msg, out = jsonMarshal (errorBody (JsonValue.num 1) (-32603) msg))) :=
  processHTTPRequest_single_response false "" "\x7b\"jsonrpc\":\"2.0\",\"id\":1,\"method\":\"ping\"\x7d"
    (HTTPOutcome.response 200 "" "\x7b\"jsonrpc\":\"2.0\",\"id\":1,\"result\":\x7b\x7d\x7d")
    [("jsonrpc", JsonValue.str "2.0"), ("id", JsonValue.num 1), ("method", JsonValue.str "ping")]
    (JsonValue.num 1) (by rfl) (by rfl) (by rfl)

/-- Claim C2: over any arrival sequence of connected signals, stdin lines
and stdin closure, the `runSSE` control flow consumes the connected signal
at most once per run — the wait loop exits on the first receive and the
main loop never selects on that channel again. -/
theorem runSSE_connected_delivered_at_most_once (events : List SSEEvent) :
    (runSSETrace events).connectedConsumed ≤ 1 :=
  runSSETrace_consumed_aux events runSSEInit (by simp [runSSEInit]) (fun _ => rfl)

/-- Claim C3 (counterexample): in stream (SSE) mode a forwarded message
answered with HTTP 500 produces no synthesized error at all — the status
is only logged — so the claim that both transport modes emit a -32603
error on a non-2xx status fails on this input. -/
theorem sse_non2xx_no_error_counterexample :
    (processStdinLine "\x7b\"jsonrpc\":\"2.0\",\"id\":1,\"method\":\"ping\"\x7d"
        "http://h/messages" (PostOutcome.success 500)).forwarded = true ∧
    (processStdinLine "\x7b\"jsonrpc\":\"2.0\",\"id\":1,\"method\":\"ping\"\x7d"
        "http://h/messages" (PostOutcome.success 500)).output = none :=
  ⟨rfl, rfl⟩

/-- Claim C3 (amended): in HTTP mode a non-2xx upstream status yields the
synthesized -32603 error carrying the request identifier, and the failure
body is logged only in debug mode; in stream mode a received status — 2xx
or not — emits nothing to the client (only the transport-failure branch
emits there). -/
theorem http_non2xx_synthesized_error (debug : Bool) (sessionID rawLine hdr body : String)
    (status : Nat) (fields : List (String × JsonValue)) (v : JsonValue)
    (hp : strStarts (goTrimSpace rawLine) "\x7b" = true)
    (hm : unmarshalToMap (goTrimSpace rawLine) = some fields)
    (hid : mapGet fields "id" = some v)
    (hs : status < 200 ∨ 300 ≤ status) :
    (processHTTPRequest debug sessionID rawLine (HTTPOutcome.response status hdr body)).output =
      some (jsonMarshal (errorBody v (-32603) ("Server returned HTTP " ++ toString status))) ∧
    ((processHTTPRequest debug sessionID rawLine
        (HTTPOutcome.response status hdr body)).loggedBody = true → debug = true) ∧
    (∀ purl, (processStdinLine rawLine purl (PostOutcome.success status)).output = none) := by
  have hne : goTrimSpace rawLine ≠ "" := starts_brace_ne_empty _ hp
  refine ⟨?_, ?_, ?_⟩
  · simp [processHTTPRequest, hp, hm, hid, hs,
      createErrorResponse_eq _ (-32603) _ fields v hne hm hid]
  · intro hlog
    by_contra hd
    simp [processHTTPRequest, hp, hm, hid, hs, hd] at hlog
  · intro purl
    by_cases hb : strStarts (goTrimSpace rawLine) "\x7b" = true
    · cases hum : unmarshalToMap (goTrimSpace rawLine) <;>
        simp [processStdinLine, hb, hum]
    · simp [processStdinLine, hb]

/-- Witness for the amended C3 at the HTTP 500 ping scenario. -/
theorem http_non2xx_synthesized_error_witness :
    (processHTTPRequest true "" "\x7b\"jsonrpc\":\"2.0\",\"id\":1,\"method\":\"ping\"\x7d"
        (HTTPOutcome.response 500 "" "oops")).output =
      some (jsonMarshal (errorBody (JsonValue.num 1) (-32603)
        ("Server returned HTTP " ++ toString (500 : Nat)))) ∧
    ((processHTTPRequest true "" "\x7b\"jsonrpc\":\"2.0\",\"id\":1,\"method\":\"ping\"\x7d"
        (HTTPOutcome.response 500 "" "oops")).loggedBody = true → (true : Bool) = true) ∧
    (∀ purl, (processStdinLine "\x7b\"jsonrpc\":\"2.0\",\"id\":1,\"method\":\"ping\"\x7d"
        purl (PostOutcome.success 500)).output = none) :=
  http_non2xx_synthesized_error true "" "\x7b\"jsonrpc\":\"2.0\",\"id\":1,\"method\":\"ping\"\x7d"
    "" "oops" 500
    [("jsonrpc", JsonValue.str "2.0"), ("id", JsonValue.num 1), ("method", JsonValue.str "ping")]
    (JsonValue.num 1) (by rfl) (by rfl) (by rfl) (by omega)

/-- Claim C4 (counterexample): the emitted error line for the HTTP 500
ping scenario is not the byte string claimed — Go serializes the
`map[string]interface\x7b\x7d` with its keys in sorted order, so `error`
comes before `id` and `jsonrpc`. -/
theorem http_500_bytes_counterexample :
    (processHTTPRequest false "" "\x7b\"jsonrpc\":\"2.0\",\"id\":1,\"method\":\"ping\"\x7d"
        (HTTPOutcome.response 500 "" "")).output ≠
      some "\x7b\"jsonrpc\":\"2.0\",\"id\":1,\"error\":\x7b\"code\":-32603,\"message\":\"Server returned HTTP 500\"\x7d\x7d" := by
  decide

/-- Claim C4 (amended): for the ping input with upstream HTTP 500 the
emitted line is exactly the same JSON-RPC error object with the keys in
the sorted order in which Go marshals a map: `error`, `id`, `jsonrpc`. -/
theorem http_500_bytes_sorted_keys :
    (processHTTPRequest false "" "\x7b\"jsonrpc\":\"2.0\",\"id\":1,\"method\":\"ping\"\x7d"
        (HTTPOutcome.response 500 "" "")).output =
      some "\x7b\"error\":\x7b\"code\":-32603,\"message\":\"Server returned HTTP 500\"\x7d,\"id\":1,\"jsonrpc\":\"2.0\"\x7d" := by
  rfl

/-- Claim C5 (counterexample): the pending-endpoint flag is not latched
for the rest of the connection — a second `event: endpoint` line within
the same connection re-arms it, so a second rewrite is applied and the
submission URL ends at the second path, not the first. -/
theorem sse_second_rewrite_counterexample :
    (sseConn "http://h" "http://h/messages"
        ["event: endpoint", "data: /a", "event: endpoint", "data: /b"]).postURL =
      "http://h" ++ "/b" ∧
    (sseConn "http://h" "http://h/messages"
        ["event: endpoint", "data: /a", "event: endpoint", "data: /b"]).postURL ≠
      "http://h" ++ "/a" := by
  exact ⟨rfl, by decide⟩

/-- Claim C5 (amended): after `event: endpoint` followed by a data line
whose payload is a path, the submission URL is the server origin
concatenated with that path, and it stays so for the rest of the
connection until the next valid rewrite — in particular through a later
`event: endpoint` line whose following payload is not a path: such a line
re-arms the flag (it is not latched for the whole connection), but only a
valid pair moves the URL again. -/
theorem sse_endpoint_rewrite_until_next (server postURL0 l p : String)
    (rest : List String)
    (h1 : strStarts (goTrimSpace l) "event: endpoint" = false)
    (h2 : strStarts (goTrimSpace l) "data:" = true)
    (h3 : goTrimSpace (strDrop (goTrimSpace l) 5) = p)
    (h4 : strStarts p "/" = true)
    (hrest : hasValidRewrite 3 rest = false) :
    (sseConn server postURL0 ("event: endpoint" :: l :: rest)).postURL = server ++ p := by
  unfold sseConn
  rw [List.foldl_cons]
  rw [sseProcessLine_event server _ "event: endpoint" (by decide) (by decide)]
  rw [List.foldl_cons]
  rw [sseProcessLine_data_path server _ l p h1 h2 h3 h4 rfl]
  rw [sseConn_fold_no_rewrite server rest _ hrest]

/-- Witness for the amended C5 at the `/session123/messages` scenario of
the specification, with a later malformed re-handshake (`event: endpoint`
followed by `data: hello`) through which the submission URL persists. -/
theorem sse_endpoint_rewrite_until_next_witness :
    (sseConn "http://h" "http://h/messages"
        ("event: endpoint" :: "data: /session123/messages" ::
          ["event: endpoint", "data: hello"])).postURL =
      "http://h" ++ "/session123/messages" :=
  sse_endpoint_rewrite_until_next "http://h" "http://h/messages"
    "data: /session123/messages" "/session123/messages" ["event: endpoint", "data: hello"]
    (by decide) (by decide) (by decide) (by decide) (by decide)

/-- Claim C6: in HTTP mode an input line that decodes to a JSON object
without an `id` field (a notification) produces no client-visible output
and is never forwarded upstream, whatever the network would have
answered. -/
theorem http_notification_silent (debug : Bool) (sessionID rawLine : String)
    (outcome : HTTPOutcome) (fields : List (String × JsonValue))
    (hm : unmarshalToMap (goTrimSpace rawLine) = some fields)
    (hid : mapGet fields "id" = none) :
    (processHTTPRequest debug sessionID rawLine outcome).output = none ∧
    (processHTTPRequest debug sessionID rawLine outcome).forwarded = false := by
  by_cases hp : strStarts (goTrimSpace rawLine) "\x7b" = true
  · simp [processHTTPRequest, hp, hm, hid]
  · simp [processHTTPRequest, hp]

/-- Witness for C6 at the notification scenario of the specification. -/
theorem http_notification_silent_witness :
    (processHTTPRequest true "" "\x7b\"jsonrpc\":\"2.0\",\"method\":\"notify\"\x7d"
        (HTTPOutcome.response 200 "" "x")).output = none ∧
    (processHTTPRequest true "" "\x7b\"jsonrpc\":\"2.0\",\"method\":\"notify\"\x7d"
        (HTTPOutcome.response 200 "" "x")).forwarded = false :=
  http_notification_silent true "" "\x7b\"jsonrpc\":\"2.0\",\"method\":\"notify\"\x7d"
    (HTTPOutcome.response 200 "" "x")
    [("jsonrpc", JsonValue.str "2.0"), ("method", JsonValue.str "notify")]
    (by rfl) (by rfl)

/-- Claim C7: with the pending-endpoint flag armed, a nonempty data
payload that is not a path disarms the flag, records the protocol-warning
log, and still forwards the payload to the client; processing continues
normally (the step yields an ordinary state, no abort). -/
theorem sse_malformed_handshake_forwards (server : String) (st : SSEConnState)
    (rawLine p : String)
    (h1 : strStarts (goTrimSpace rawLine) "event: endpoint" = false)
    (h2 : strStarts (goTrimSpace rawLine) "data:" = true)
    (h3 : goTrimSpace (strDrop (goTrimSpace rawLine) 5) = p)
    (hne : p ≠ "")
    (h4 : strStarts p "/" = false)
    (h5 : st.epTrack = 1) :
    sseProcessLine server st rawLine =
      { st with epTrack := 3, emitted := st.emitted ++ [p], warned := st.warned ++ [p] } := by
  have h0 : goTrimSpace rawLine ≠ "" := starts_data_ne_empty _ h2
  simp [sseProcessLine, h0, h1, h2, h3, h4, h5, hne]

/-- Witness for C7: an armed tracker receiving `data: hello`. -/
theorem sse_malformed_handshake_forwards_witness :
    sseProcessLine "http://h" ⟨1, "http://h/messages", [], []⟩ "data: hello" =
      ⟨3, "http://h/messages", ["hello"], ["hello"]⟩ :=
  sse_malformed_handshake_forwards "http://h" ⟨1, "http://h/messages", [], []⟩
    "data: hello" "hello" (by decide) (by decide) (by decide) (by decide) (by decide) rfl

/-- Claim C8: while `runSSE` waits for the connected signal, only the
first stdin line is buffered and all later ones are discarded; the
buffered line is processed on connection, and stdin closure during the
wait finishes the bridge without processing anything. -/
theorem runSSE_buffers_at_most_one_line (l : String) (rest : List String) (hl : l ≠ "") :
    (runSSETrace (SSEEvent.stdinLine l :: rest.map SSEEvent.stdinLine)).phase =
        RunPhase.waiting ∧
    (runSSETrace (SSEEvent.stdinLine l :: rest.map SSEEvent.stdinLine)).pendingLine = l ∧
    (runSSETrace (SSEEvent.stdinLine l :: rest.map SSEEvent.stdinLine)).processed = [] ∧
    (runSSETrace ((SSEEvent.stdinLine l :: rest.map SSEEvent.stdinLine) ++
        [SSEEvent.connected])).processed = [l] ∧
    (runSSETrace ((SSEEvent.stdinLine l :: rest.map SSEEvent.stdinLine) ++
        [SSEEvent.stdinClosed])).phase = RunPhase.finished ∧
    (runSSETrace ((SSEEvent.stdinLine l :: rest.map SSEEvent.stdinLine) ++
        [SSEEvent.stdinClosed])).processed = [] := by
  have hfirst : runSSEStep runSSEInit (SSEEvent.stdinLine l) =
      ⟨RunPhase.waiting, l, [], 0⟩ := by
    simp [runSSEStep, runSSEInit]
  have hflood : runSSETrace (SSEEvent.stdinLine l :: rest.map SSEEvent.stdinLine) =
      ⟨RunPhase.waiting, l, [], 0⟩ := by
    unfold runSSETrace
    rw [List.foldl_cons, hfirst]
    exact runSSE_flood l hl [] 0 rest
  refine ⟨?_, ?_, ?_, ?_, ?_, ?_⟩
  · rw [hflood]
  · rw [hflood]
  · rw [hflood]
  · rw [runSSETrace_snoc, hflood]
    simp [runSSEStep, hl]
  · rw [runSSETrace_snoc, hflood]
    simp [runSSEStep]
  · rw [runSSETrace_snoc, hflood]
    simp [runSSEStep]

/-- Witness for C8: line `ping` followed by two more lines during the
wait. -/
theorem runSSE_buffers_at_most_one_line_witness :
    (runSSETrace (SSEEvent.stdinLine "ping" :: ["a", "b"].map SSEEvent.stdinLine)).phase =
        RunPhase.waiting ∧
    (runSSETrace (SSEEvent.stdinLine "ping" :: ["a", "b"].map SSEEvent.stdinLine)).pendingLine =
        "ping" ∧
    (runSSETrace (SSEEvent.stdinLine "ping" :: ["a", "b"].map SSEEvent.stdinLine)).processed = [] ∧
    (runSSETrace ((SSEEvent.stdinLine "ping" :: ["a", "b"].map SSEEvent.stdinLine) ++
        [SSEEvent.connected])).processed = ["ping"] ∧
    (runSSETrace ((SSEEvent.stdinLine "ping" :: ["a", "b"].map SSEEvent.stdinLine) ++
        [SSEEvent.stdinClosed])).phase = RunPhase.finished ∧
    (runSSETrace ((SSEEvent.stdinLine "ping" :: ["a", "b"].map SSEEvent.stdinLine) ++
        [SSEEvent.stdinClosed])).processed = [] :=
  runSSE_buffers_at_most_one_line "ping" ["a", "b"] (by decide)

/-- Claim C9: in every configuration reachable from any set of concurrent
`sendToClient` calls, the bytes written to stdout are the complete emitted
lines of the finished calls in order, followed only by a prefix of the
line of the current lock holder — no partial message is ever followed by
bytes of a different message, and each message is one contiguous
newline-terminated line. -/
theorem sendToClient_no_interleaving (msgs : List String) (cfg : WConfig)
    (h : Relation.ReflTransGen EmitStep (initW msgs) cfg) :
    ∃ pfx, cfg.out = joinedOut cfg.completed ++ pfx ∧
      (cfg.cur = none → pfx = []) ∧
      (∀ m rest, cfg.cur = some (m, rest) → pfx ++ rest = emitBytes m) := by
  have hinv := winv_reach msgs cfg h
  cases hcur : cfg.cur with
  | none =>
      refine ⟨[], ?_, fun _ => rfl, ?_⟩
      · rw [hinv.1 hcur, List.append_nil]
      · intro m rest hc
        exact absurd hc (by simp)
  | some pr =>
      obtain ⟨m0, rest0⟩ := pr
      obtain ⟨pfx, hp1, hp2⟩ := hinv.2 m0 rest0 hcur
      refine ⟨pfx, hp1, ?_, ?_⟩
      · intro hnone
        exact absurd hnone (by simp)
      · intro m rest hc
        injection hc with hps
        injection hps with he1 he2
        subst he1
        subst he2
        exact hp2

/-- Witness for C9: two concurrent calls, one acquire step taken. -/
theorem sendToClient_no_interleaving_witness :
    ∃ pfx, (WConfig.mk ["b"] (some ("a", emitBytes "a")) [] []).out =
        joinedOut (WConfig.mk ["b"] (some ("a", emitBytes "a")) [] []).completed ++ pfx ∧
      ((WConfig.mk ["b"] (some ("a", emitBytes "a")) [] []).cur = none → pfx = []) ∧
      (∀ m rest, (WConfig.mk ["b"] (some ("a", emitBytes "a")) [] []).cur = some (m, rest) →
        pfx ++ rest = emitBytes m) :=
  sendToClient_no_interleaving ["a", "b"] (WConfig.mk ["b"] (some ("a", emitBytes "a")) [] [])
    (Relation.ReflTransGen.single (EmitStep.acquire [] ["b"] "a" [] []))

/-- Claim C10: in HTTP mode a message whose `id` field is present but
null is treated as a request: it is forwarded for every outcome, and the
synthesized error on a transport failure carries id null — the
notification test is field presence, not a non-null value. -/
theorem http_null_id_treated_as_request (debug : Bool) (sessionID rawLine : String)
    (fields : List (String × JsonValue))
    (hp : strStarts (goTrimSpace rawLine) "\x7b" = true)
    (hm : unmarshalToMap (goTrimSpace rawLine) = some fields)
    (hid : mapGet fields "id" = some JsonValue.null) :
    (∀ outcome, (processHTTPRequest debug sessionID rawLine outcome).forwarded = true) ∧
    (∀ e, (processHTTPRequest debug sessionID rawLine (HTTPOutcome.postFailure e)).output =
      some (jsonMarshal (errorBody JsonValue.null (-32603) ("Failed to POST: " ++ e)))) := by
  have hne : goTrimSpace rawLine ≠ "" := starts_brace_ne_empty _ hp
  constructor
  · intro outcome
    cases outcome with
    | postFailure e => simp [processHTTPRequest, hp, hm, hid]
    | readFailure status hdr e => simp [processHTTPRequest, hp, hm, hid]
    | response status hdr body =>
        by_cases hs : status < 200 ∨ 300 ≤ status <;>
          simp [processHTTPRequest, hp, hm, hid, hs]
  · intro e
    simp [processHTTPRequest, hp, hm, hid,
      createErrorResponse_eq _ (-32603) _ fields JsonValue.null hne hm hid]

/-- Witness for C10 at a null-id ping. -/
theorem http_null_id_treated_as_request_witness :
    (∀ outcome, (processHTTPRequest false ""
        "\x7b\"jsonrpc\":\"2.0\",\"id\":null,\"method\":\"ping\"\x7d" outcome).forwarded = true) ∧
    (∀ e, (processHTTPRequest false ""
        "\x7b\"jsonrpc\":\"2.0\",\"id\":null,\"method\":\"ping\"\x7d"
        (HTTPOutcome.postFailure e)).output =
      some (jsonMarshal (errorBody JsonValue.null (-32603) ("Failed to POST: " ++ e)))) :=
  http_null_id_treated_as_request false ""
    "\x7b\"jsonrpc\":\"2.0\",\"id\":null,\"method\":\"ping\"\x7d"
    [("jsonrpc", JsonValue.str "2.0"), ("id", JsonValue.null), ("method", JsonValue.str "ping")]
    (by rfl) (by rfl) (by rfl)

end MCPRelay
